import Mathlib

/-!
Verification of the competitive math-quiz server core against its
specification.  The development shallowly embeds the server-side
JavaScript sources:

* `QuestionGenerator` (question generation and answer validation),
* `StateManager` (per-round mutable state: question, submissions,
  lock, winner),
* `StateMachineLogger` (the lifecycle state machine IDLE / ACTIVE /
  LOCKED / TRANSITIONING).

JavaScript numbers that occur in the quiz logic (canonical answers,
user-submitted decimals, `Math.random()` outcomes, timestamps) are all
exact decimal values; they are embedded as scaled integers `m / 10^k`
(structure `DecNum`) so every operation is kernel-computable, and a
`toRat` view connects them to the rational statements of the spec.
Rounding of IEEE doubles is far below the 1e-4 tolerance used by the
validator and never changes an observable result on these inputs.
-/

namespace Quiz

/-! ## Exact decimal numbers (model of the JS number values involved) -/

/-- An exact decimal value `m / 10 ^ k`.  This represents the
JavaScript number values that appear in the quiz logic. -/
structure DecNum where
  m : Int
  k : Nat
deriving DecidableEq

/-- The rational value denoted by a `DecNum`. -/
def DecNum.toRat (p : DecNum) : ℚ := (p.m : ℚ) / 10 ^ p.k

/-- Integer-only test for `|p - c| < 1/10000`, the tolerance comparison
`Math.abs(parsedAnswer - correctAnswer) < 0.0001` of
`QuestionGenerator.validate`. -/
def closeEnough (p : DecNum) (c : Int) : Bool :=
  (p.m - c * 10 ^ p.k).natAbs * 10000 < 10 ^ p.k

theorem closeEnough_iff (p : DecNum) (c : Int) :
    closeEnough p c = true ↔ |p.toRat - (c : ℚ)| < 1 / 10000 := by
  unfold closeEnough DecNum.toRat
  rw [decide_eq_true_eq]
  have hpow : (0:ℚ) < 10 ^ p.k := by positivity
  rw [div_sub' _ _ _ (ne_of_gt hpow), abs_div, abs_of_pos hpow,
    div_lt_div_iff₀ hpow (by norm_num : (0:ℚ) < 10000)]
  rw [show ((p.m : ℚ) - 10 ^ p.k * (c:ℚ)) = ((p.m - c * 10 ^ p.k : Int) : ℚ) by push_cast; ring]
  rw [← Int.cast_abs, Int.abs_eq_natAbs, one_mul]
  constructor <;> intro h <;> exact_mod_cast h

/-! ## JS string-to-number coercion (`Number(...)`), as used by `validate`

`Number(s)` on a string trims whitespace; the empty remainder coerces
to `0`; otherwise the remainder must be a decimal literal (optionally
signed, optional fraction and exponent) or an unsigned hex / octal /
binary literal, else the result is `NaN`.  `NaN` is represented by
`none`.  The literals `Infinity` / `-Infinity` are also mapped to
`none`: `validate` compares through `|x - c| < 1e-4`, which is false
for infinite values exactly as it is for `NaN`, so the collapse is
observationally neutral for the code under verification. -/

/-- Whitespace characters trimmed by JS string-to-number coercion
(space, tab, line feed, carriage return, vertical tab, form feed,
no-break space; further exotic Unicode space code points behave the
same way and are omitted). -/
def jsWhitespace (c : Char) : Bool :=
  c = ' ' || c = '\t' || c = '\n' || c = '\r' ||
  c = Char.ofNat 0x0B || c = Char.ofNat 0x0C || c = Char.ofNat 0xA0

/-- Trim `jsWhitespace` from both ends. -/
def jsTrim (cs : List Char) : List Char :=
  ((cs.dropWhile jsWhitespace).reverse.dropWhile jsWhitespace).reverse

/-- Numeric value of a decimal digit string (most significant first). -/
def digitsVal (ds : List Char) : Nat :=
  ds.foldl (fun a c => a * 10 + (c.toNat - 48)) 0

/-- Parse a nonempty all-digit string as a natural number. -/
def parseNatAll (cs : List Char) : Option Nat :=
  if cs ≠ [] ∧ cs.all Char.isDigit then some (digitsVal cs) else none

/-- Parse an optionally signed nonempty digit string (the exponent body). -/
def parseSignedInt : List Char → Option Int
  | '+' :: rest => (parseNatAll rest).map (fun n => (n : Int))
  | '-' :: rest => (parseNatAll rest).map (fun n => -(n : Int))
  | rest => (parseNatAll rest).map (fun n => (n : Int))

/-- Parse the exponent suffix: empty means exponent 0; `e`/`E` followed
by a signed integer consuming the rest; anything else is a parse error. -/
def parseExpPart : List Char → Option Int
  | [] => some 0
  | 'e' :: rest => parseSignedInt rest
  | 'E' :: rest => parseSignedInt rest
  | _ => none

/-- Parse the mantissa `digits [. digits]` (at least one digit overall),
returning its digit value, the fraction length, and the unconsumed rest. -/
def parseDecMantissa (cs : List Char) : Option (Nat × Nat × List Char) :=
  let ip := cs.takeWhile Char.isDigit
  let rest1 := cs.dropWhile Char.isDigit
  match rest1 with
  | '.' :: rest2 =>
    let fp := rest2.takeWhile Char.isDigit
    let rest3 := rest2.dropWhile Char.isDigit
    if ip.isEmpty && fp.isEmpty then none
    else some (digitsVal (ip ++ fp), fp.length, rest3)
  | _ => if ip.isEmpty then none else some (digitsVal ip, 0, rest1)

/-- Parse an unsigned decimal literal with optional exponent into an
exact decimal. -/
def parseUnsignedDec (cs : List Char) : Option DecNum :=
  match parseDecMantissa cs with
  | none => none
  | some (n, fracLen, rest) =>
    match parseExpPart rest with
    | none => none
    | some e =>
      if 0 ≤ e then some ⟨(n : Int) * 10 ^ e.toNat, fracLen⟩
      else some ⟨(n : Int), fracLen + e.natAbs⟩

/-- Parse a nonempty digit string in the given base. -/
def parseRadix (base : Nat) (isDig : Char → Bool) (val : Char → Nat)
    (cs : List Char) : Option DecNum :=
  if cs ≠ [] ∧ cs.all isDig then
    some ⟨(cs.foldl (fun a c => a * base + val c) 0 : Nat), 0⟩
  else none

/-- Hex digit test. -/
def isHexDigit (c : Char) : Bool :=
  c.isDigit || ('a' ≤ c && c ≤ 'f') || ('A' ≤ c && c ≤ 'F')

/-- Hex digit value. -/
def hexVal (c : Char) : Nat :=
  if c.isDigit then c.toNat - 48
  else if 'a' ≤ c then c.toNat - 87
  else c.toNat - 55

/-- Model of JS `Number(s)` for a string `s` (see the section comment
for the treatment of `NaN` and infinities). -/
def jsStringToNumber (s : String) : Option DecNum :=
  match jsTrim s.data with
  | [] => some ⟨0, 0⟩
  | '0' :: 'x' :: rest => parseRadix 16 isHexDigit hexVal rest
  | '0' :: 'X' :: rest => parseRadix 16 isHexDigit hexVal rest
  | '0' :: 'o' :: rest => parseRadix 8 (fun c => '0' ≤ c && c ≤ '7') (fun c => c.toNat - 48) rest
  | '0' :: 'O' :: rest => parseRadix 8 (fun c => '0' ≤ c && c ≤ '7') (fun c => c.toNat - 48) rest
  | '0' :: 'b' :: rest => parseRadix 2 (fun c => c = '0' || c = '1') (fun c => c.toNat - 48) rest
  | '0' :: 'B' :: rest => parseRadix 2 (fun c => c = '0' || c = '1') (fun c => c.toNat - 48) rest
  | '+' :: rest => parseUnsignedDec rest
  | '-' :: rest => (parseUnsignedDec rest).map (fun p => ⟨-p.m, p.k⟩)
  | cs => parseUnsignedDec cs

/-- A value submitted as an answer: a string or a number
(`@param {String|Number} answer` in the source). -/
inductive JsInput where
  | str : String → JsInput
  | num : DecNum → JsInput
deriving DecidableEq

/-- JS `Number(v)` on a string-or-number value. -/
def jsToNumber : JsInput → Option DecNum
  | .str s => jsStringToNumber s
  | .num p => some p

namespace QuestionGenerator

/-- Embedding of `QuestionGenerator.validate(userAnswer, correctAnswer)`:
rejects `null` / `undefined` (both `none`) and the literal empty
string, coerces through `Number(...)`, rejects `NaN`, and otherwise
compares `Math.abs(parsed - correct) < 0.0001`. -/
def validate (userAnswer : Option JsInput) (correctAnswer : Int) : Bool :=
  match userAnswer with
  | none => false
  | some (.str "") => false
  | some v =>
    match jsToNumber v with
    | none => false
    | some p => closeEnough p correctAnswer

end QuestionGenerator

/-! ## StateMachineLogger (the LifecycleMachine)

Embedding of `src/backend/src/services/StateMachineLogger.js`.  The
`transition` method checks the allowed-transition table only to decide
whether to emit a `console.warn`; it then unconditionally appends the
record and installs the new state.  Console output has no state effect
and is not modelled. -/

/-- Lifecycle states. -/
inductive LState where
  | IDLE | ACTIVE | LOCKED | TRANSITIONING
deriving DecidableEq

/-- The `validTransitions` table. -/
def validTransitions : LState → List LState
  | .IDLE => [.ACTIVE]
  | .ACTIVE => [.LOCKED, .IDLE]
  | .LOCKED => [.TRANSITIONING]
  | .TRANSITIONING => [.ACTIVE, .IDLE]

/-- A record pushed onto `stateHistory` (the timestamp and free-form
context fields carry no logic and are omitted; `from` is a Lean keyword
so the field is named `fromState`). -/
structure TransitionRecord where
  fromState : LState
  toState : LState
  transitionNumber : Nat
deriving DecidableEq

/-- The mutable fields of a `StateMachineLogger`. -/
structure StateMachineLogger where
  currentState : LState
  stateHistory : List TransitionRecord
  transitionCount : Nat
deriving DecidableEq

namespace StateMachineLogger

/-- The constructor: state `IDLE`, empty history. -/
def init : StateMachineLogger := ⟨.IDLE, [], 0⟩

/-- Embedding of `transition(newState, context)`.  The validity check
in the source only triggers `console.warn`; the record is pushed and
the state updated in every case. -/
def transition (mach : StateMachineLogger) (newState : LState) : StateMachineLogger :=
  let cnt := mach.transitionCount + 1
  { currentState := newState
    stateHistory := mach.stateHistory ++ [⟨mach.currentState, newState, cnt⟩]
    transitionCount := cnt }

end StateMachineLogger

/-! ## StateManager (the RoundState)

Embedding of the `StateManager` class.  The JS `Map` of submissions is
an insertion-ordered association list; `submissionOrder` is the array
of `{socketId, timestamp}` entries. -/

/-- Question object produced by `QuestionGenerator.generate` (the
derived `generatedAtISO` string is omitted). -/
structure Question where
  id : String
  question : String
  answer : Int
  num1 : Int
  num2 : Int
  operatorSymbol : String
  difficultyTag : String
  generatedAt : Nat
deriving DecidableEq

/-- A stored submission (the derived `timestampISO` string is omitted). -/
structure Submission where
  answer : JsInput
  timestamp : Int
deriving DecidableEq

/-- An entry of the `submissionOrder` array. -/
structure OrderEntry where
  socketId : String
  timestamp : Int
deriving DecidableEq

/-- Key lookup in the submissions map. -/
def mapHas (mp : List (String × Submission)) (k : String) : Bool :=
  mp.any (fun p => p.1 = k)

/-- Value lookup in the submissions map. -/
def mapGet (mp : List (String × Submission)) (k : String) : Option Submission :=
  (mp.find? (fun p => p.1 = k)).map (fun p => p.2)

/-- JS `Map.set`: overwrite in place when the key exists, else append. -/
def mapSet (mp : List (String × Submission)) (k : String) (v : Submission) :
    List (String × Submission) :=
  if mapHas mp k then mp.map (fun p => if p.1 = k then (k, v) else p)
  else mp ++ [(k, v)]

/-- The mutable fields of a `StateManager`. -/
structure StateManager where
  currentQuestion : Option Question
  currentWinner : Option String
  isLocked : Bool
  submissions : List (String × Submission)
  submissionOrder : List OrderEntry
  GRACE_PERIOD_MS : Int
deriving DecidableEq

/-- Rejection reasons of `recordSubmission`; the constructors stand for
the strings `question-locked`, `already-submitted`, `no-question`. -/
inductive RejectReason where
  | questionLocked | alreadySubmitted | noQuestion
deriving DecidableEq

/-- Result of `recordSubmission`: `{success: true, timestamp}` or
`{success: false, reason}`. -/
inductive SubmitResult where
  | ok (timestamp : Int)
  | rejected (reason : RejectReason)
deriving DecidableEq

namespace StateManager

/-- The constructor: no question, no winner, unlocked, empty maps,
100 ms grace period. -/
def init : StateManager := ⟨none, none, false, [], [], 100⟩

/-- Embedding of `setQuestion(question)`. -/
def setQuestion (s : StateManager) (question : Question) : StateManager :=
  { s with
    currentQuestion := some question
    currentWinner := none
    isLocked := false
    submissions := []
    submissionOrder := [] }

/-- Embedding of `getCurrentQuestion()`. -/
def getCurrentQuestion (s : StateManager) : Option Question := s.currentQuestion

/-- Embedding of `hasSubmitted(socketId)`. -/
def hasSubmitted (s : StateManager) (socketId : String) : Bool :=
  mapHas s.submissions socketId

/-- Embedding of `recordSubmission(socketId, answer, timestamp)`;
returns the updated state together with the result object. -/
def recordSubmission (s : StateManager) (socketId : String) (answer : JsInput)
    (timestamp : Int) : StateManager × SubmitResult :=
  if s.isLocked then (s, .rejected .questionLocked)
  else if s.hasSubmitted socketId then (s, .rejected .alreadySubmitted)
  else if s.currentQuestion.isNone then (s, .rejected .noQuestion)
  else
    ({ s with
        submissions := mapSet s.submissions socketId ⟨answer, timestamp⟩
        submissionOrder := s.submissionOrder ++ [⟨socketId, timestamp⟩] },
      .ok timestamp)

/-- Embedding of `attemptWin(socketId, isCorrect)`; returns the updated
state together with the boolean result.  (The winner's submission data
is fetched in the source but only read.) -/
def attemptWin (s : StateManager) (socketId : String) (isCorrect : Bool) :
    StateManager × Bool :=
  if s.isLocked then (s, false)
  else if isCorrect then
    ({ s with isLocked := true, currentWinner := some socketId }, true)
  else (s, false)

/-- Embedding of `getWinner()`. -/
def getWinner (s : StateManager) : Option String := s.currentWinner

/-- Embedding of `isQuestionLocked()`. -/
def isQuestionLocked (s : StateManager) : Bool := s.isLocked

/-- The comparator `(a, b) => a.timestamp - b.timestamp` passed to
`Array.prototype.sort`, as the ordering relation it induces. -/
def tsLe (a b : OrderEntry) : Prop := a.timestamp ≤ b.timestamp

instance : DecidableRel tsLe := fun a b => Int.decLe a.timestamp b.timestamp

instance : IsTotal OrderEntry tsLe := ⟨fun a b => Int.le_total a.timestamp b.timestamp⟩

instance : IsTrans OrderEntry tsLe := ⟨fun _ _ _ h1 h2 => Int.le_trans h1 h2⟩

/-- The in-place stable sort performed by `submissionOrder.sort(...)`
(V8's `Array.prototype.sort` is stable; any stable sort computes the
same list, here insertion sort). -/
def sortByTimestamp (l : List OrderEntry) : List OrderEntry :=
  List.insertionSort tsLe l

/-- Embedding of `getSubmissionsInOrder()`.  `sort` mutates
`submissionOrder` in place, so the method returns both the merged
value list and the updated state. -/
def getSubmissionsInOrder (s : StateManager) :
    (List (OrderEntry × Option Submission)) × StateManager :=
  let sorted := sortByTimestamp s.submissionOrder
  (sorted.map (fun e => (e, mapGet s.submissions e.socketId)),
    { s with submissionOrder := sorted })

/-- Embedding of `getGracePeriodSubmissions()`.  On a nonempty order
array it sorts in place and filters by
`timestamp <= firstTimestamp + GRACE_PERIOD_MS`. -/
def getGracePeriodSubmissions (s : StateManager) :
    List OrderEntry × StateManager :=
  match s.submissionOrder with
  | [] => ([], s)
  | _ :: _ =>
    let sorted := sortByTimestamp s.submissionOrder
    let firstTimestamp := (sorted.headD ⟨"", 0⟩).timestamp
    let gracePeriodEnd := firstTimestamp + s.GRACE_PERIOD_MS
    (sorted.filter (fun e => e.timestamp ≤ gracePeriodEnd),
      { s with submissionOrder := sorted })

/-- Embedding of `getSubmission(socketId)`. -/
def getSubmission (s : StateManager) (socketId : String) : Option Submission :=
  mapGet s.submissions socketId

/-- Embedding of `reset()`. -/
def reset (s : StateManager) : StateManager :=
  { s with
    currentQuestion := none
    currentWinner := none
    isLocked := false
    submissions := []
    submissionOrder := [] }

end StateManager

/-! ## Decimal rendering of naturals (JS template-literal rendering of
`Date.now()` and of the operands) -/

/-- The character of a decimal digit. -/
def decDigitChar (d : Nat) : Char := Char.ofNat (48 + d)

/-- Little-endian decimal digits, with explicit fuel so the kernel can
evaluate it. -/
def decDigitsAux : Nat → Nat → List Nat
  | 0, _ => []
  | _ + 1, 0 => []
  | fuel + 1, n + 1 => ((n + 1) % 10) :: decDigitsAux fuel ((n + 1) / 10)

/-- Little-endian decimal digits of `n`. -/
def decDigits (n : Nat) : List Nat := decDigitsAux n n

/-- Decimal rendering of a natural number, as JS renders it inside a
template literal. -/
def decRepr (n : Nat) : String :=
  if n = 0 then "0" else ⟨(decDigits n).reverse.map decDigitChar⟩

/-- Decimal rendering of an integer. -/
def intRepr (n : Int) : String :=
  if n < 0 then "-" ++ decRepr n.natAbs else decRepr n.natAbs

/-! ## QuestionGenerator.generate

`generate` consumes randomness (`Math.random()`) and the clock
(`Date.now()`).  Those external reads are supplied by a `GenOracle`:
each `Math.random()` outcome is an exact decimal in `[0, 1)`, the
clock reading is a natural, and the random id suffix
`Math.random().toString(36).substr(2, 9)` is supplied as the resulting
string (its characters are base-36 digits; the derivation from a float
is not modelled, only the string it yields). -/

/-- An operator entry of `this.operators`. -/
inductive OpSym where
  | plus | minus | times
deriving DecidableEq

/-- The `symbol` field. -/
def OpSym.symbol : OpSym → String
  | .plus => "+"
  | .minus => "-"
  | .times => "*"

/-- The `operation` field. -/
def OpSym.apply : OpSym → Int → Int → Int
  | .plus, a, b => a + b
  | .minus, a, b => a - b
  | .times, a, b => a * b

/-- The `this.operators` array, in source order. -/
def operatorsList : List OpSym := [.plus, .minus, .times]

/-- A difficulty level tag. -/
inductive Difficulty where
  | easy | medium | hard
deriving DecidableEq

/-- The string form of a difficulty tag. -/
def Difficulty.tag : Difficulty → String
  | .easy => "easy"
  | .medium => "medium"
  | .hard => "hard"

/-- An entry of `this.difficultyLevels`. -/
structure DifficultyConfig where
  minNumber : Int
  maxNumber : Int
  operators : List OpSym
deriving DecidableEq

/-- The `difficultyLevels` table. -/
def difficultyLevels : Difficulty → DifficultyConfig
  | .easy => ⟨1, 50, [.plus, .minus]⟩
  | .medium => ⟨1, 100, [.plus, .minus, .times]⟩
  | .hard => ⟨10, 100, [.plus, .minus, .times]⟩

/-- The external reads performed by one `generate` call. -/
structure GenOracle where
  r1 : DecNum
  r2 : DecNum
  rOp : DecNum
  r3 : DecNum
  r4 : DecNum
  now : Nat
  suffix : String
deriving DecidableEq

namespace QuestionGenerator

/-- Embedding of `getRandomNumber(min, max)` at a given `Math.random()`
outcome `r`: `Math.floor(r * (max - min + 1)) + min` (exact for decimal
`r`; `Int.fdiv` is floor division). -/
def getRandomNumber (r : DecNum) (mn mx : Int) : Int :=
  (r.m * (mx - mn + 1)).fdiv (10 ^ r.k) + mn

/-- Embedding of `getRandomOperator(difficulty)` at a given
`Math.random()` outcome: filter `this.operators` by the difficulty
config, index by `Math.floor(r * length)`. -/
def getRandomOperator (difficulty : Difficulty) (r : DecNum) : OpSym :=
  let config := difficultyLevels difficulty
  let availableOperators := operatorsList.filter (fun op => config.operators.contains op)
  let randomIndex := (r.m * availableOperators.length).fdiv (10 ^ r.k)
  availableOperators.getD randomIndex.toNat .plus

/-- The id built by `generate`:
`` `q_${Date.now()}_${Math.random().toString(36).substr(2, 9)}` ``. -/
def questionId (o : GenOracle) : String :=
  "q_" ++ decRepr o.now ++ "_" ++ o.suffix

/-- Embedding of `generate(difficulty)` at a given oracle. -/
def generate (difficulty : Difficulty) (o : GenOracle) : Question :=
  let config := difficultyLevels difficulty
  let num1a := getRandomNumber o.r1 config.minNumber config.maxNumber
  let num2a := getRandomNumber o.r2 config.minNumber config.maxNumber
  let operatorSym := getRandomOperator difficulty o.rOp
  let p1 := if operatorSym = .minus ∧ num1a < num2a then (num2a, num1a) else (num1a, num2a)
  let p2 :=
    if operatorSym = .times then
      (getRandomNumber o.r3 config.minNumber (min config.maxNumber 20),
        getRandomNumber o.r4 config.minNumber (min config.maxNumber 20))
    else p1
  { id := questionId o
    question := intRepr p2.1 ++ " " ++ operatorSym.symbol ++ " " ++ intRepr p2.2
    answer := operatorSym.apply p2.1 p2.2
    num1 := p2.1
    num2 := p2.2
    operatorSymbol := operatorSym.symbol
    difficultyTag := difficulty.tag
    generatedAt := o.now }

end QuestionGenerator

/-! ## Sequences of StateManager operations

`RoundOp` are the operations available inside one round (no
`setQuestion`, no `reset`); `StateOp` additionally includes the two
round-ending operations.  The two sorting accessors are included as
state transformers because their in-place `sort` mutates
`submissionOrder`; the remaining accessors are pure functions of the
state and cannot mutate it. -/

/-- Operations available within a round. -/
inductive RoundOp where
  | record (socketId : String) (answer : JsInput) (timestamp : Int)
  | attempt (socketId : String) (isCorrect : Bool)
  | readOrdered
  | readGrace
deriving DecidableEq

/-- Apply a round operation; the second component is 1 when the
operation was an `attemptWin` call that returned true. -/
def applyRoundOp (s : StateManager) : RoundOp → StateManager × Nat
  | .record c a t => ((s.recordSubmission c a t).1, 0)
  | .attempt c b =>
    let r := s.attemptWin c b
    (r.1, if r.2 then 1 else 0)
  | .readOrdered => (s.getSubmissionsInOrder.2, 0)
  | .readGrace => (s.getGracePeriodSubmissions.2, 0)

/-- Run a round: final state, and how many `attemptWin` calls returned
true. -/
def runRound (s : StateManager) : List RoundOp → StateManager × Nat
  | [] => (s, 0)
  | op :: ops =>
    let st := applyRoundOp s op
    let rest := runRound st.1 ops
    (rest.1, st.2 + rest.2)

/-- All public StateManager operations (mutating ones; `resetOp` is the
`reset()` method). -/
inductive StateOp where
  | setQ (q : Question)
  | record (socketId : String) (answer : JsInput) (timestamp : Int)
  | attempt (socketId : String) (isCorrect : Bool)
  | resetOp
  | readOrdered
  | readGrace
deriving DecidableEq

/-- Apply a public operation to the state. -/
def applyStateOp (s : StateManager) : StateOp → StateManager
  | .setQ q => s.setQuestion q
  | .record c a t => (s.recordSubmission c a t).1
  | .attempt c b => (s.attemptWin c b).1
  | .resetOp => s.reset
  | .readOrdered => s.getSubmissionsInOrder.2
  | .readGrace => s.getGracePeriodSubmissions.2

/-- Run a sequence of public operations. -/
def runOps (s : StateManager) (ops : List StateOp) : StateManager :=
  ops.foldl applyStateOp s

/-- Whether an operation is an `attemptWin` call. -/
def isAttempt : StateOp → Bool
  | .attempt _ _ => true
  | _ => false

/-- Whether every `attemptWin` in the sequence executes while a
question is present (the socket handler guarantees this: it calls
`attemptWin` only after a successful `recordSubmission`). -/
def attemptsGuarded (s : StateManager) : List StateOp → Bool
  | [] => true
  | op :: ops =>
    (!(isAttempt op) || s.currentQuestion.isSome) && attemptsGuarded (applyStateOp s op) ops

/-! ## Properties of decimal rendering (used for question-id analysis) -/

theorem decDigitsAux_ofDigits : ∀ fuel n, n ≤ fuel → Nat.ofDigits 10 (decDigitsAux fuel n) = n := by
  intro fuel
  induction fuel with
  | zero =>
    intro n h
    obtain rfl := Nat.le_zero.mp h
    rfl
  | succ fuel ih =>
    intro n h
    match n with
    | 0 => rfl
    | m + 1 =>
      have hdivlt : (m + 1) / 10 < m + 1 := Nat.div_lt_self (Nat.succ_pos m) (by norm_num)
      have hdiv : (m + 1) / 10 ≤ fuel := Nat.lt_succ_iff.mp (lt_of_lt_of_le hdivlt h)
      show Nat.ofDigits 10 (((m + 1) % 10) :: decDigitsAux fuel ((m + 1) / 10)) = m + 1
      rw [Nat.ofDigits_cons, ih _ hdiv]
      omega

theorem decDigits_ofDigits (n : Nat) : Nat.ofDigits 10 (decDigits n) = n :=
  decDigitsAux_ofDigits n n le_rfl

theorem decDigitsAux_lt_ten : ∀ fuel n, ∀ d ∈ decDigitsAux fuel n, d < 10 := by
  intro fuel
  induction fuel with
  | zero => intro n d h; simp [decDigitsAux] at h
  | succ fuel ih =>
    intro n d h
    match n with
    | 0 => simp [decDigitsAux] at h
    | m + 1 =>
      simp only [decDigitsAux, List.mem_cons] at h
      rcases h with h | h
      · subst h; exact Nat.mod_lt _ (by norm_num)
      · exact ih _ _ h

theorem decDigits_lt_ten (n : Nat) : ∀ d ∈ decDigits n, d < 10 :=
  decDigitsAux_lt_ten n n

theorem decDigitChar_inj : ∀ d1 < 10, ∀ d2 < 10, decDigitChar d1 = decDigitChar d2 → d1 = d2 := by
  decide

theorem decDigitChar_ne_underscore : ∀ d < 10, decDigitChar d ≠ '_' := by decide

theorem map_decDigitChar_inj :
    ∀ l1 l2 : List Nat, (∀ d ∈ l1, d < 10) → (∀ d ∈ l2, d < 10) →
      l1.map decDigitChar = l2.map decDigitChar → l1 = l2 := by
  intro l1
  induction l1 with
  | nil => intro l2 _ _ h; cases l2 <;> simp_all
  | cons x xs ih =>
    intro l2 h1 h2 h
    cases l2 with
    | nil => simp at h
    | cons y ys =>
      simp only [List.map_cons, List.cons.injEq] at h
      have hx := h1 x (List.mem_cons_self x xs)
      have hy := h2 y (List.mem_cons_self y ys)
      have hxy := decDigitChar_inj x hx y hy h.1
      have htl := ih ys (fun d hd => h1 d (List.mem_cons_of_mem _ hd))
        (fun d hd => h2 d (List.mem_cons_of_mem _ hd)) h.2
      rw [hxy, htl]

theorem decRepr_eq_zero (n : Nat) (h : decRepr n = "0") : n = 0 := by
  by_contra hn
  rw [decRepr, if_neg hn] at h
  have hd : (decDigits n).reverse.map decDigitChar = ['0'] := congrArg String.data h
  cases hrev : (decDigits n).reverse with
  | nil => rw [hrev] at hd; simp at hd
  | cons d rest =>
    rw [hrev] at hd
    simp only [List.map_cons, List.cons.injEq] at hd
    have hd10 : d < 10 := by
      have hmem : d ∈ (decDigits n).reverse := by rw [hrev]; exact List.mem_cons_self _ _
      exact decDigits_lt_ten n d (List.mem_reverse.mp hmem)
    have hd0 : d = 0 := decDigitChar_inj d hd10 0 (by norm_num) hd.1
    have hrest : rest = [] := List.map_eq_nil_iff.mp hd.2
    have hdig : decDigits n = [0] := by
      have hr : (decDigits n).reverse = [0] := by rw [hrev, hd0, hrest]
      rw [← List.reverse_reverse (decDigits n), hr]
      rfl
    have hval := decDigits_ofDigits n
    rw [hdig] at hval
    simp [Nat.ofDigits] at hval
    exact hn hval.symm

theorem decRepr_inj : ∀ m n : Nat, decRepr m = decRepr n → m = n := by
  intro m n h
  by_cases hm : m = 0 <;> by_cases hn : n = 0
  · rw [hm, hn]
  · exfalso
    rw [hm] at h
    exact hn (decRepr_eq_zero n (by rw [← h]; rfl))
  · exfalso
    rw [hn] at h
    exact hm (decRepr_eq_zero m (by rw [h]; rfl))
  · rw [decRepr, decRepr, if_neg hm, if_neg hn] at h
    have hd := congrArg String.data h
    simp only [String.data] at hd
    have hrev := map_decDigitChar_inj _ _
      (fun d hd => decDigits_lt_ten m d (List.mem_reverse.mp hd))
      (fun d hd => decDigits_lt_ten n d (List.mem_reverse.mp hd)) hd
    have hdig : decDigits m = decDigits n := by
      rw [← List.reverse_reverse (decDigits m), hrev, List.reverse_reverse]
    have h1 := decDigits_ofDigits m
    rw [hdig, decDigits_ofDigits n] at h1
    exact h1.symm

theorem underscore_not_mem_decRepr (n : Nat) : '_' ∉ (decRepr n).data := by
  rw [decRepr]
  by_cases hn : n = 0
  · rw [if_pos hn]
    decide
  · rw [if_neg hn]
    intro hmem
    have : ∃ d ∈ (decDigits n).reverse, decDigitChar d = '_' := by
      simpa using (List.mem_map.mp hmem)
    obtain ⟨d, hd, he⟩ := this
    exact decDigitChar_ne_underscore d
      (decDigits_lt_ten n d (List.mem_reverse.mp hd)) he

theorem sep_append_inj :
    ∀ a c b d : List Char, '_' ∉ a → '_' ∉ c →
      a ++ '_' :: b = c ++ '_' :: d → a = c ∧ b = d := by
  intro a
  induction a with
  | nil =>
    intro c b d _ hc h
    cases c with
    | nil => simpa using h
    | cons y ys =>
      exfalso
      simp only [List.nil_append, List.cons_append, List.cons.injEq] at h
      exact hc (h.1 ▸ List.mem_cons_self y ys)
  | cons x xs ih =>
    intro c b d ha hc h
    cases c with
    | nil =>
      exfalso
      simp only [List.cons_append, List.nil_append, List.cons.injEq] at h
      exact ha (h.1 ▸ List.mem_cons_self x xs)
    | cons y ys =>
      simp only [List.cons_append, List.cons.injEq] at h
      have hxs : '_' ∉ xs := fun hm => ha (List.mem_cons_of_mem x hm)
      have hys : '_' ∉ ys := fun hm => hc (List.mem_cons_of_mem y hm)
      obtain ⟨h1, h2⟩ := ih ys b d hxs hys h.2
      exact ⟨by rw [h.1, h1], h2⟩

theorem questionId_eq_iff (o1 o2 : GenOracle) :
    QuestionGenerator.questionId o1 = QuestionGenerator.questionId o2 ↔
      o1.now = o2.now ∧ o1.suffix = o2.suffix := by
  constructor
  · intro h
    have hd := congrArg String.data h
    simp only [QuestionGenerator.questionId, String.data_append] at hd
    simp only [List.append_assoc, List.cons_append, List.nil_append,
      List.singleton_append] at hd
    have htail : (decRepr o1.now).data ++ '_' :: o1.suffix.data =
        (decRepr o2.now).data ++ '_' :: o2.suffix.data := by
      have := List.cons.inj hd
      exact List.cons.inj this.2 |>.2
    obtain ⟨hn, hs⟩ := sep_append_inj _ _ _ _
      (underscore_not_mem_decRepr o1.now) (underscore_not_mem_decRepr o2.now) htail
    refine ⟨decRepr_inj _ _ (String.ext hn), String.ext hs⟩
  · intro ⟨hn, hs⟩
    simp [QuestionGenerator.questionId, hn, hs]

/-! ## Run lemmas for StateManager operation sequences -/

theorem sortByTimestamp_idem (l : List OrderEntry) :
    StateManager.sortByTimestamp (StateManager.sortByTimestamp l) =
      StateManager.sortByTimestamp l :=
  List.Sorted.insertionSort_eq (List.sorted_insertionSort StateManager.tsLe l)

theorem sortByTimestamp_perm (l : List OrderEntry) :
    (StateManager.sortByTimestamp l).Perm l :=
  List.perm_insertionSort StateManager.tsLe l

theorem getSubmissionsInOrder_state (s : StateManager) :
    s.getSubmissionsInOrder.2 =
      { s with submissionOrder := StateManager.sortByTimestamp s.submissionOrder } := rfl

theorem getGracePeriodSubmissions_state (s : StateManager) :
    s.getGracePeriodSubmissions.2 =
      { s with submissionOrder := StateManager.sortByTimestamp s.submissionOrder } := by
  rcases s with ⟨q, w, l, subs, order, g⟩
  cases order with
  | nil => rfl
  | cons e rest => rfl

theorem mapHas_mapSet (mp : List (String × Submission)) (k c : String) (v : Submission)
    (h : mapHas mp c = true) : mapHas (mapSet mp k v) c = true := by
  obtain ⟨p, hmem, hp⟩ := List.any_eq_true.mp h
  rw [decide_eq_true_eq] at hp
  rw [mapSet]
  split
  · refine List.any_eq_true.mpr ⟨if p.1 = k then (k, v) else p, List.mem_map_of_mem _ hmem, ?_⟩
    by_cases hpk : p.1 = k
    · rw [if_pos hpk, decide_eq_true_eq]
      rw [← hpk, hp]
    · rw [if_neg hpk, decide_eq_true_eq]
      exact hp
  · exact List.any_eq_true.mpr ⟨p, List.mem_append_left _ hmem, by rw [decide_eq_true_eq]; exact hp⟩

theorem applyRoundOp_of_locked (s : StateManager) (op : RoundOp) (h : s.isLocked = true) :
    (applyRoundOp s op).1.isLocked = true ∧ (applyRoundOp s op).2 = 0 := by
  cases op with
  | record c a t => simp [applyRoundOp, StateManager.recordSubmission, h]
  | attempt c b => simp [applyRoundOp, StateManager.attemptWin, h]
  | readOrdered =>
    refine ⟨?_, rfl⟩
    rw [applyRoundOp, getSubmissionsInOrder_state]
    exact h
  | readGrace =>
    refine ⟨?_, rfl⟩
    rw [applyRoundOp, getGracePeriodSubmissions_state]
    exact h

theorem runRound_of_locked (ops : List RoundOp) :
    ∀ s : StateManager, s.isLocked = true → (runRound s ops).2 = 0 := by
  induction ops with
  | nil => intro s _; rfl
  | cons op ops ih =>
    intro s h
    obtain ⟨h1, h2⟩ := applyRoundOp_of_locked s op h
    rw [runRound]
    simp only [h2, Nat.zero_add]
    exact ih _ h1

theorem runRound_count_le_one (ops : List RoundOp) :
    ∀ s : StateManager, (runRound s ops).2 ≤ 1 := by
  induction ops with
  | nil => intro s; exact Nat.zero_le 1
  | cons op ops ih =>
    intro s
    rw [runRound]
    by_cases hl : s.isLocked = true
    · obtain ⟨_, h2⟩ := applyRoundOp_of_locked s op hl
      rw [h2, Nat.zero_add]
      exact ih (applyRoundOp s op).1
    · have hl' : s.isLocked = false := by simpa using hl
      cases op with
      | record c a t =>
        rw [show (applyRoundOp s (.record c a t)).2 = 0 from rfl, Nat.zero_add]
        exact ih (applyRoundOp s (.record c a t)).1
      | readOrdered =>
        rw [show (applyRoundOp s .readOrdered).2 = 0 from rfl, Nat.zero_add]
        exact ih (applyRoundOp s .readOrdered).1
      | readGrace =>
        rw [show (applyRoundOp s .readGrace).2 = 0 from rfl, Nat.zero_add]
        exact ih (applyRoundOp s .readGrace).1
      | attempt c b =>
        cases b with
        | false =>
          have hstep : applyRoundOp s (.attempt c false) = (s, 0) := by
            simp [applyRoundOp, StateManager.attemptWin, hl']
          rw [hstep, Nat.zero_add]
          exact ih s
        | true =>
          have hstep : applyRoundOp s (.attempt c true) =
              ({ s with isLocked := true, currentWinner := some c }, 1) := by
            simp [applyRoundOp, StateManager.attemptWin, hl']
          rw [hstep]
          have hrest : (runRound { s with isLocked := true, currentWinner := some c } ops).2 = 0 :=
            runRound_of_locked ops _ rfl
          simp [hrest]

theorem applyRoundOp_hasSubmitted (s : StateManager) (op : RoundOp) (c : String)
    (h : s.hasSubmitted c = true) : (applyRoundOp s op).1.hasSubmitted c = true := by
  cases op with
  | record c' a t =>
    rw [applyRoundOp, StateManager.recordSubmission]
    split
    · exact h
    · split
      · exact h
      · split
        · exact h
        · exact mapHas_mapSet _ _ _ _ h
  | attempt c' b =>
    rw [applyRoundOp]
    show ((s.attemptWin c' b).1.hasSubmitted c) = true
    rw [StateManager.attemptWin]
    split
    · exact h
    · split
      · exact h
      · exact h
  | readOrdered =>
    rw [applyRoundOp, getSubmissionsInOrder_state]
    exact h
  | readGrace =>
    rw [applyRoundOp, getGracePeriodSubmissions_state]
    exact h

theorem runRound_hasSubmitted (ops : List RoundOp) :
    ∀ s : StateManager, ∀ c : String, s.hasSubmitted c = true →
      (runRound s ops).1.hasSubmitted c = true := by
  induction ops with
  | nil => intro s c h; exact h
  | cons op ops ih =>
    intro s c h
    rw [runRound]
    exact ih _ c (applyRoundOp_hasSubmitted s op c h)

/-! ## The structural invariant I4 -/

/-- The part of invariant I4 the code maintains unconditionally: with
no current question, the submission map and the order list are empty. -/
def I4core (s : StateManager) : Prop :=
  s.currentQuestion = none → s.submissions = [] ∧ s.submissionOrder = []

/-- Invariant I4 as the spec states it: with no current question, the
submission map and order list are empty, the lock is clear and there is
no winner. -/
def I4full (s : StateManager) : Prop :=
  s.currentQuestion = none →
    s.submissions = [] ∧ s.submissionOrder = [] ∧
      s.isLocked = false ∧ s.currentWinner = none

theorem I4core_step (s : StateManager) (op : StateOp) (h : I4core s) :
    I4core (applyStateOp s op) := by
  cases op with
  | setQ q => intro hq; simp [applyStateOp, StateManager.setQuestion] at hq
  | record c a t =>
    rw [applyStateOp, StateManager.recordSubmission]
    split
    · exact h
    · split
      · exact h
      · split
        · exact h
        · intro hq
          rename_i hnone
          simp only [Option.isNone_iff_eq_none] at hq hnone
          exact absurd hq hnone
  | attempt c b =>
    rw [applyStateOp, StateManager.attemptWin]
    split
    · exact h
    · split
      · intro hq
        exact (h hq : _)
      · exact h
  | resetOp => intro _; exact ⟨rfl, rfl⟩
  | readOrdered =>
    rw [applyStateOp, getSubmissionsInOrder_state]
    intro hq
    obtain ⟨h1, h2⟩ := h hq
    exact ⟨h1, by rw [h2]; rfl⟩
  | readGrace =>
    rw [applyStateOp, getGracePeriodSubmissions_state]
    intro hq
    obtain ⟨h1, h2⟩ := h hq
    exact ⟨h1, by rw [h2]; rfl⟩

theorem I4core_run (ops : List StateOp) :
    ∀ s : StateManager, I4core s → I4core (runOps s ops) := by
  induction ops with
  | nil => intro s h; exact h
  | cons op ops ih => intro s h; exact ih _ (I4core_step s op h)

theorem I4full_step (s : StateManager) (op : StateOp) (h : I4full s)
    (hg : isAttempt op = true → s.currentQuestion.isSome = true) :
    I4full (applyStateOp s op) := by
  cases op with
  | setQ q => intro hq; simp [applyStateOp, StateManager.setQuestion] at hq
  | record c a t =>
    rw [applyStateOp, StateManager.recordSubmission]
    split
    · exact h
    · split
      · exact h
      · split
        · exact h
        · intro hq
          rename_i hnone
          simp only [Option.isNone_iff_eq_none] at hq hnone
          exact absurd hq hnone
  | attempt c b =>
    have hq : s.currentQuestion.isSome = true := hg rfl
    rw [applyStateOp, StateManager.attemptWin]
    split
    · exact h
    · split
      · intro hnone
        rw [Option.isSome_iff_ne_none] at hq
        exact absurd hnone hq
      · exact h
  | resetOp => intro _; exact ⟨rfl, rfl, rfl, rfl⟩
  | readOrdered =>
    rw [applyStateOp, getSubmissionsInOrder_state]
    intro hq
    obtain ⟨h1, h2, h3, h4⟩ := h hq
    exact ⟨h1, by rw [h2]; rfl, h3, h4⟩
  | readGrace =>
    rw [applyStateOp, getGracePeriodSubmissions_state]
    intro hq
    obtain ⟨h1, h2, h3, h4⟩ := h hq
    exact ⟨h1, by rw [h2]; rfl, h3, h4⟩

theorem I4full_run (ops : List StateOp) :
    ∀ s : StateManager, I4full s → attemptsGuarded s ops = true →
      I4full (runOps s ops) := by
  induction ops with
  | nil => intro s h _; exact h
  | cons op ops ih =>
    intro s h hg
    rw [attemptsGuarded, Bool.and_eq_true] at hg
    have hg1 : isAttempt op = true → s.currentQuestion.isSome = true := by
      intro ha
      rcases Bool.or_eq_true _ _ |>.mp hg.1 with hb | hb
      · rw [ha] at hb; simp at hb
      · exact hb
    exact ih _ (I4full_step s op h hg1) hg.2

/-! ## Further helper lemmas -/

theorem sortByTimestamp_eq_nil_iff (l : List OrderEntry) :
    StateManager.sortByTimestamp l = [] ↔ l = [] := by
  constructor
  · intro h
    have := sortByTimestamp_perm l
    rw [h] at this
    exact this.symm.eq_nil
  · intro h
    rw [h]
    rfl

theorem grace_value_eq (s : StateManager) :
    s.getGracePeriodSubmissions.1 =
      if s.submissionOrder = [] then []
      else
        (StateManager.sortByTimestamp s.submissionOrder).filter
          (fun e => e.timestamp ≤
            ((StateManager.sortByTimestamp s.submissionOrder).headD ⟨"", 0⟩).timestamp +
              s.GRACE_PERIOD_MS) := by
  rcases s with ⟨q, w, l, subs, order, g⟩
  cases order with
  | nil => rfl
  | cons e rest => simp [StateManager.getGracePeriodSubmissions]

theorem validate_str_ne_empty (s : String) (h : s ≠ "") (c : Int) :
    QuestionGenerator.validate (some (.str s)) c =
      match jsStringToNumber s with
      | none => false
      | some p => closeEnough p c := by
  rcases s with ⟨cs⟩
  cases cs with
  | nil => exact absurd rfl h
  | cons x xs => rfl

theorem jsTrim_all_ws (cs : List Char) (h : cs.all jsWhitespace = true) :
    jsTrim cs = [] := by
  have hdrop : cs.dropWhile jsWhitespace = [] := by
    rw [List.dropWhile_eq_nil_iff]
    intro x hx
    exact List.all_eq_true.mp h x hx
  rw [jsTrim, hdrop]
  rfl

theorem jsStringToNumber_all_ws (s : String) (h : s.data.all jsWhitespace = true) :
    jsStringToNumber s = some ⟨0, 0⟩ := by
  rw [jsStringToNumber, jsTrim_all_ws s.data h]

/-! ## Concrete fixtures used by witnesses and counterexamples -/

/-- A concrete question (the output of `generate` on an all-zero
oracle at millisecond 1). -/
def qEx : Question :=
  QuestionGenerator.generate .medium ⟨⟨0,0⟩, ⟨0,0⟩, ⟨0,0⟩, ⟨0,0⟩, ⟨0,0⟩, 1, "abc"⟩

/-- A concrete locked state: a fresh manager after a winning
`attemptWin` call. -/
def sLockedEx : StateManager := (StateManager.init.attemptWin "w" true).1

/-- A concrete state with one recorded submission by `"a"`. -/
def sSubmittedEx : StateManager :=
  ((StateManager.init.setQuestion qEx).recordSubmission "a" (.str "2") 5).1

/-! ## Claim theorems -/

/-- C1 counterexample: from the initial state `IDLE`, calling
`transition(TRANSITIONING)` — a pair not in the allowed table — still
changes the current state to `TRANSITIONING` and appends the record
`(IDLE, TRANSITIONING)` to the history, contradicting the claim that
the state is left unchanged and that every recorded pair is allowed. -/
theorem C1_counterexample :
    (StateMachineLogger.init.transition .TRANSITIONING).currentState = .TRANSITIONING ∧
    .TRANSITIONING ∉ validTransitions .IDLE ∧
    (StateMachineLogger.init.transition .TRANSITIONING).stateHistory =
      [⟨.IDLE, .TRANSITIONING, 1⟩] :=
  ⟨rfl, by decide, rfl⟩

/-- C1 (amended): `transition(target, context)` performs the transition
unconditionally.  Even when `(currentState, target)` is not in the
allowed-transition table, the machine still moves to `target` and the
record `(from, target)` is appended to the history — the validity check
only emits a console warning.  Consequently the history may contain
pairs outside the allowed set. -/
theorem C1_invalid_transition_still_performed (mach : StateMachineLogger) (t : LState)
    (_h : t ∉ validTransitions mach.currentState) :
    (mach.transition t).currentState = t ∧
    (mach.transition t).stateHistory =
      mach.stateHistory ++ [⟨mach.currentState, t, mach.transitionCount + 1⟩] :=
  ⟨rfl, rfl⟩

/-- Witness for C1 at the concrete invalid transition IDLE → TRANSITIONING. -/
theorem C1_invalid_transition_still_performed_witness :
    .TRANSITIONING ∉ validTransitions StateMachineLogger.init.currentState ∧
    ((StateMachineLogger.init.transition .TRANSITIONING).currentState = .TRANSITIONING ∧
      (StateMachineLogger.init.transition .TRANSITIONING).stateHistory =
        StateMachineLogger.init.stateHistory ++
          [⟨StateMachineLogger.init.currentState, .TRANSITIONING,
            StateMachineLogger.init.transitionCount + 1⟩]) :=
  ⟨by decide,
    C1_invalid_transition_still_performed StateMachineLogger.init .TRANSITIONING (by decide)⟩

/-- C2: `attemptWin(connId, isCorrect)` returns false when the round is
already locked, returns false when the answer is incorrect, and
otherwise locks the round, installs `connId` as winner and returns
true; consequently over any sequence of in-round operations following a
`setQuestion`, at most one `attemptWin` call returns true — at most one
connection is elected winner per round. -/
theorem C2_attemptWin_single_winner :
    ∀ (s : StateManager) (c : String) (b : Bool),
      ((s.attemptWin c b).2 = (!s.isLocked && b)) ∧
      ((s.attemptWin c b).1 =
        if !s.isLocked && b then { s with isLocked := true, currentWinner := some c }
        else s) ∧
      ∀ (s0 : StateManager) (q : Question) (ops : List RoundOp),
        (runRound (s0.setQuestion q) ops).2 ≤ 1 := by
  intro s c b
  refine ⟨?_, ?_, fun s0 q ops => runRound_count_le_one ops _⟩ <;>
    cases hl : s.isLocked <;> cases b <;> simp [StateManager.attemptWin, hl]

/-- C3: `recordSubmission` checks its preconditions in the order
locked, duplicate, missing question — each rejection reason occurs
exactly when its condition is the first to apply — and on success it
appends the new submission to the map and the `(connId, timestamp)`
entry to the order list, leaving the state unchanged otherwise. -/
theorem C3_recordSubmission_check_order :
    ∀ (s : StateManager) (c : String) (a : JsInput) (t : Int),
      ((s.recordSubmission c a t).2 = .rejected .questionLocked ↔ s.isLocked = true) ∧
      ((s.recordSubmission c a t).2 = .rejected .alreadySubmitted ↔
        s.isLocked = false ∧ s.hasSubmitted c = true) ∧
      ((s.recordSubmission c a t).2 = .rejected .noQuestion ↔
        s.isLocked = false ∧ s.hasSubmitted c = false ∧ s.currentQuestion = none) ∧
      ((s.recordSubmission c a t).2 = .ok t ↔
        s.isLocked = false ∧ s.hasSubmitted c = false ∧ s.currentQuestion ≠ none) ∧
      ((s.recordSubmission c a t).1 =
        if s.isLocked = true ∨ s.hasSubmitted c = true ∨ s.currentQuestion = none then s
        else
          { s with
            submissions := s.submissions ++ [(c, ⟨a, t⟩)],
            submissionOrder := s.submissionOrder ++ [⟨c, t⟩] }) := by
  intro s c a t
  cases hl : s.isLocked <;> cases hhs : s.hasSubmitted c <;> cases hq : s.currentQuestion <;>
    simp [StateManager.recordSubmission, StateManager.hasSubmitted, mapSet, hl, hhs, hq] <;>
    simp [StateManager.hasSubmitted] at hhs <;>
    simp [mapSet, hhs]

/-- C8: `setQuestion(q)` installs `q` and returns the submission map,
the order list, the lock and the winner to their cleared state,
regardless of the previous contents (only the grace period survives). -/
theorem C8_setQuestion_resets :
    ∀ (s : StateManager) (q : Question),
      s.setQuestion q =
        { currentQuestion := some q, currentWinner := none, isLocked := false,
          submissions := [], submissionOrder := [],
          GRACE_PERIOD_MS := s.GRACE_PERIOD_MS } :=
  fun _ _ => rfl

/-- C10: the mutating operations fail atomically — whenever
`recordSubmission` rejects (any reason) or `attemptWin` returns false,
the state is exactly the state before the call. -/
theorem C10_failure_atomicity :
    ∀ (s : StateManager) (c : String) (a : JsInput) (t : Int) (b : Bool),
      (∀ r : RejectReason, (s.recordSubmission c a t).2 = .rejected r →
        (s.recordSubmission c a t).1 = s) ∧
      ((s.attemptWin c b).2 = false → (s.attemptWin c b).1 = s) := by
  intro s c a t b
  constructor
  · intro r
    rw [StateManager.recordSubmission]
    split
    · intro _; rfl
    · split
      · intro _; rfl
      · split
        · intro _; rfl
        · intro h; exact absurd h (by simp)
  · rw [StateManager.attemptWin]
    split
    · intro _; rfl
    · split
      · intro h; exact absurd h (by simp)
      · intro _; rfl

/-- Witness for C10: on a concrete locked state, a rejected
`recordSubmission` and a false `attemptWin` both leave the state
untouched. -/
theorem C10_failure_atomicity_witness :
    ((sLockedEx.recordSubmission "a" (.str "5") 3).2 = .rejected .questionLocked) ∧
    ((sLockedEx.recordSubmission "a" (.str "5") 3).1 = sLockedEx) ∧
    ((sLockedEx.attemptWin "a" true).2 = false) ∧
    ((sLockedEx.attemptWin "a" true).1 = sLockedEx) :=
  ⟨by decide,
    (C10_failure_atomicity sLockedEx "a" (.str "5") 3 true).1 .questionLocked (by decide),
    by decide,
    (C10_failure_atomicity sLockedEx "a" (.str "5") 3 true).2 (by decide)⟩

/-- A state whose submissions arrived out of timestamp order
(`"a"` at t=5, then `"b"` at t=3). -/
def sOutOfOrderEx : StateManager :=
  (((StateManager.init.setQuestion qEx).recordSubmission "a" (.str "2") 5).1.recordSubmission
    "b" (.str "3") 3).1

/-- Two generate oracles sharing the clock reading and random suffix
but differing in the operand randomness. -/
def oSameIdA : GenOracle := ⟨⟨0,0⟩, ⟨0,0⟩, ⟨0,0⟩, ⟨0,0⟩, ⟨0,0⟩, 7, "abcdefghi"⟩

/-- See `oSameIdA`. -/
def oSameIdB : GenOracle := ⟨⟨5,1⟩, ⟨5,1⟩, ⟨0,0⟩, ⟨0,0⟩, ⟨0,0⟩, 7, "abcdefghi"⟩

/-- C4 counterexample: from the initial state (question absent), the
single public call `attemptWin("a", true)` yields a state with no
question but with the lock set and a winner installed — `attemptWin`
does not check that a question is present, so invariant I4 fails after
this sequence of public operations. -/
theorem C4_counterexample :
    (runOps StateManager.init [.attempt "a" true]).currentQuestion = none ∧
    (runOps StateManager.init [.attempt "a" true]).isLocked = true ∧
    (runOps StateManager.init [.attempt "a" true]).currentWinner = some "a" := by
  decide

/-- C4 (amended): after any sequence of public operations from the
initial state, question-absent implies the submission map and order
list are empty; the full invariant I4 (additionally lock clear and
winner absent) holds provided every `attemptWin` in the sequence runs
while a question is present — which is how the socket handler invokes
it (only after a successful `recordSubmission`). -/
theorem C4_question_absent_invariant :
    ∀ ops : List StateOp,
      I4core (runOps StateManager.init ops) ∧
      (attemptsGuarded StateManager.init ops = true →
        I4full (runOps StateManager.init ops)) := by
  intro ops
  refine ⟨I4core_run ops _ ?_, fun hg => I4full_run ops _ ?_ hg⟩
  · intro _; exact ⟨rfl, rfl⟩
  · intro _; exact ⟨rfl, rfl, rfl, rfl⟩

/-- Witness for C4 on a concrete guarded sequence ending with the
question absent. -/
theorem C4_question_absent_invariant_witness :
    attemptsGuarded StateManager.init [.setQ qEx, .attempt "a" true, .resetOp] = true ∧
    I4full (runOps StateManager.init [.setQ qEx, .attempt "a" true, .resetOp]) :=
  ⟨by decide,
    (C4_question_absent_invariant [.setQ qEx, .attempt "a" true, .resetOp]).2 (by decide)⟩

/-- C5 counterexample: the whitespace-only string `" "` is NOT
rejected — JS `Number(" ")` coerces the trimmed-empty remainder to 0,
so `validate(" ", 0)` returns true, contradicting the claim that a
whitespace-only string is rejected. -/
theorem C5_counterexample :
    QuestionGenerator.validate (some (.str " ")) 0 = true ∧
    (" " : String).data.all jsWhitespace = true ∧ (" " : String) ≠ "" := by
  decide

/-- C5 (amended): `validate` rejects absent inputs, the literal empty
string, and non-parseable strings; a parseable nonempty string or a
numeric input is accepted exactly when the parsed value is within
1e-4 of the canonical answer; but a whitespace-only string is NOT
rejected — it coerces to 0 and is accepted exactly when the canonical
answer is within 1e-4 of 0.  (Totality — validation never throwing —
is inherent: `validate` is a total function.) -/
theorem C5_validate_characterization :
    ∀ c : Int,
      QuestionGenerator.validate none c = false ∧
      QuestionGenerator.validate (some (.str "")) c = false ∧
      (∀ s : String, jsStringToNumber s = none →
        QuestionGenerator.validate (some (.str s)) c = false) ∧
      (∀ (s : String) (p : DecNum), s ≠ "" → jsStringToNumber s = some p →
        (QuestionGenerator.validate (some (.str s)) c = true ↔
          |p.toRat - (c : ℚ)| < 1 / 10000)) ∧
      (∀ p : DecNum,
        QuestionGenerator.validate (some (.num p)) c = true ↔
          |p.toRat - (c : ℚ)| < 1 / 10000) ∧
      (∀ s : String, s ≠ "" → s.data.all jsWhitespace = true →
        (QuestionGenerator.validate (some (.str s)) c = true ↔
          |(c : ℚ)| < 1 / 10000)) := by
  intro c
  refine ⟨rfl, rfl, ?_, ?_, ?_, ?_⟩
  · intro s hs
    by_cases he : s = ""
    · rw [he]; rfl
    · rw [validate_str_ne_empty s he c, hs]
  · intro s p hs hp
    rw [validate_str_ne_empty s hs c, hp]
    exact closeEnough_iff p c
  · intro p
    show closeEnough p c = true ↔ _
    exact closeEnough_iff p c
  · intro s hs hws
    rw [validate_str_ne_empty s hs c, jsStringToNumber_all_ws s hws]
    have := closeEnough_iff ⟨0, 0⟩ c
    simp only [DecNum.toRat] at this
    rw [this]
    constructor
    · intro h
      rw [show ((0:Int):ℚ) / 10 ^ (0:Nat) - (c:ℚ) = -(c:ℚ) by push_cast; ring] at h
      rwa [abs_neg] at h
    · intro h
      rw [show ((0:Int):ℚ) / 10 ^ (0:Nat) - (c:ℚ) = -(c:ℚ) by push_cast; ring]
      rwa [abs_neg]

/-- Witness for C5: the theorem applied at `c = 42` to the concrete
non-parseable string `"abc"`, the concrete parseable string `"4.2e1"`
(parsed as 420/10), and at `c = 0` to the whitespace-only string `" "`. -/
theorem C5_validate_characterization_witness :
    jsStringToNumber "abc" = none ∧
    QuestionGenerator.validate (some (.str "abc")) 42 = false ∧
    ("4.2e1" : String) ≠ "" ∧
    jsStringToNumber "4.2e1" = some ⟨420, 1⟩ ∧
    (QuestionGenerator.validate (some (.str "4.2e1")) 42 = true ↔
      |DecNum.toRat ⟨420, 1⟩ - ((42 : Int) : ℚ)| < 1 / 10000) ∧
    (" " : String) ≠ "" ∧
    (" " : String).data.all jsWhitespace = true ∧
    (QuestionGenerator.validate (some (.str " ")) 0 = true ↔
      |((0 : Int) : ℚ)| < 1 / 10000) :=
  ⟨by decide,
    (C5_validate_characterization 42).2.2.1 "abc" (by decide),
    by decide,
    by decide,
    (C5_validate_characterization 42).2.2.2.1 "4.2e1" ⟨420, 1⟩ (by decide) (by decide),
    by decide,
    by decide,
    (C5_validate_characterization 0).2.2.2.2.2 " " (by decide) (by decide)⟩

/-- C6 counterexample: connection `"a"` submits and then wins, locking
the round; its second submission in the same round is rejected with
reason `question-locked`, not `already-submitted` as the claim states. -/
theorem C6_counterexample :
    (sSubmittedEx.attemptWin "a" true).1.hasSubmitted "a" = true ∧
    ((sSubmittedEx.attemptWin "a" true).1.recordSubmission "a" (.str "2") 9).2 =
      .rejected .questionLocked ∧
    ((sSubmittedEx.attemptWin "a" true).1.recordSubmission "a" (.str "2") 9).2 ≠
      .rejected .alreadySubmitted := by
  decide

/-- C6 (amended): a second submission from a connection that has
already submitted in the round is always rejected and leaves the state
unchanged, but the reason is `already-submitted` only when the round is
not locked; when it is locked the earlier `question-locked` check fires
instead.  Having submitted persists across all in-round operations, so
this applies to every later submission in the round. -/
theorem C6_duplicate_rejected (s : StateManager) (c : String)
    (h : s.hasSubmitted c = true) :
    (∀ (a : JsInput) (t : Int),
      (s.recordSubmission c a t).2 =
        .rejected (if s.isLocked then .questionLocked else .alreadySubmitted) ∧
      (s.recordSubmission c a t).1 = s) ∧
    ∀ ops : List RoundOp, (runRound s ops).1.hasSubmitted c = true := by
  refine ⟨fun a t => ?_, fun ops => runRound_hasSubmitted ops s c h⟩
  cases hl : s.isLocked <;> simp [StateManager.recordSubmission, hl, h]

/-- Witness for C6 on the concrete unlocked state where `"a"` has
submitted. -/
theorem C6_duplicate_rejected_witness :
    sSubmittedEx.hasSubmitted "a" = true ∧
    (sSubmittedEx.recordSubmission "a" (.str "7") 9).2 =
      .rejected (if sSubmittedEx.isLocked then .questionLocked else .alreadySubmitted) ∧
    (runRound sSubmittedEx [.attempt "b" true]).1.hasSubmitted "a" = true :=
  ⟨by decide,
    ((C6_duplicate_rejected sSubmittedEx "a" (by decide)).1 (.str "7") 9).1,
    (C6_duplicate_rejected sSubmittedEx "a" (by decide)).2 [.attempt "b" true]⟩

/-- C7 counterexample: two distinct `generate` calls whose random
choices and clock readings happen to coincide on the millisecond and
the suffix (a possible outcome — `Math.random()` can repeat and
`Date.now()` has millisecond granularity) produce different Questions
carrying the same identifier. -/
theorem C7_counterexample :
    (QuestionGenerator.generate .medium oSameIdA).id =
      (QuestionGenerator.generate .medium oSameIdB).id ∧
    QuestionGenerator.generate .medium oSameIdA ≠
      QuestionGenerator.generate .medium oSameIdB := by
  decide

/-- C7 (amended): two generated Questions share an identifier exactly
when the two calls observed the same `Date.now()` millisecond and drew
the same random suffix.  Uniqueness within a run is therefore only
probabilistic (no monotonic counter is involved); it is not guaranteed
over every outcome of the random choices and clock readings. -/
theorem C7_id_collision_characterization :
    ∀ (d1 d2 : Difficulty) (o1 o2 : GenOracle),
      (QuestionGenerator.generate d1 o1).id = (QuestionGenerator.generate d2 o2).id ↔
        o1.now = o2.now ∧ o1.suffix = o2.suffix := by
  intro d1 d2 o1 o2
  show QuestionGenerator.questionId o1 = QuestionGenerator.questionId o2 ↔ _
  exact questionId_eq_iff o1 o2

/-- C9 counterexample: when submissions arrived out of timestamp order,
`getSubmissionsInOrder` changes the `submissionOrder` field (the
in-place `sort` reorders it), so the accessor does not leave every
field of the state unchanged. -/
theorem C9_counterexample :
    sOutOfOrderEx.submissionOrder = [⟨"a", 5⟩, ⟨"b", 3⟩] ∧
    sOutOfOrderEx.getSubmissionsInOrder.2.submissionOrder = [⟨"b", 3⟩, ⟨"a", 5⟩] ∧
    sOutOfOrderEx.getSubmissionsInOrder.2 ≠ sOutOfOrderEx := by
  decide

/-- C9 (amended): the two sorting accessors `getSubmissionsInOrder` and
`getGracePeriodSubmissions` leave the question, winner, lock,
submission map and grace period unchanged, but replace the
`submissionOrder` field by its stable timestamp sort (a permutation of
the old list).  The mutation is observation-stable: both accessors
leave the state in the same sorted form, repeating `getSubmissionsInOrder`
returns the identical value and state, and `getGracePeriodSubmissions`
after a sort returns the identical value and state. -/
theorem C9_accessors_frame (s : StateManager) :
    (s.getSubmissionsInOrder.2.currentQuestion = s.currentQuestion ∧
      s.getSubmissionsInOrder.2.currentWinner = s.currentWinner ∧
      s.getSubmissionsInOrder.2.isLocked = s.isLocked ∧
      s.getSubmissionsInOrder.2.submissions = s.submissions ∧
      s.getSubmissionsInOrder.2.GRACE_PERIOD_MS = s.GRACE_PERIOD_MS ∧
      s.getSubmissionsInOrder.2.submissionOrder =
        StateManager.sortByTimestamp s.submissionOrder ∧
      s.getSubmissionsInOrder.2.submissionOrder.Perm s.submissionOrder) ∧
    s.getGracePeriodSubmissions.2 = s.getSubmissionsInOrder.2 ∧
    s.getSubmissionsInOrder.2.getSubmissionsInOrder = s.getSubmissionsInOrder ∧
    s.getSubmissionsInOrder.2.getGracePeriodSubmissions.1 =
      s.getGracePeriodSubmissions.1 ∧
    s.getSubmissionsInOrder.2.getGracePeriodSubmissions.2 = s.getSubmissionsInOrder.2 := by
  refine ⟨⟨rfl, rfl, rfl, rfl, rfl, rfl, sortByTimestamp_perm s.submissionOrder⟩, ?_, ?_, ?_, ?_⟩
  · rw [getGracePeriodSubmissions_state, getSubmissionsInOrder_state]
  · show Prod.mk _ _ = Prod.mk _ _
    rw [getSubmissionsInOrder_state]
    simp only [StateManager.getSubmissionsInOrder, sortByTimestamp_idem]
  · rw [grace_value_eq, grace_value_eq, getSubmissionsInOrder_state]
    simp only [sortByTimestamp_idem, sortByTimestamp_eq_nil_iff]
  · rw [getGracePeriodSubmissions_state, getSubmissionsInOrder_state]
    simp only [sortByTimestamp_idem]

end Quiz
